import Mathlib

/- The arithmetic of `ℚ` is used throughout the model; its Batteries
implementation is sealed against unfolding, which would block evaluating the
model on concrete documents, so it is unsealed here (the kernel checks the
resulting proofs in full either way). -/
set_option allowUnsafeReducibility true in
attribute [semireducible] Rat.ofScientific Rat.mul Rat.inv Rat.add Rat.sub

/-!
Verification development for the GPC result-extraction and formatting core
(`extract_peak_results`, `format_value_with_uncertainty`,
`display_and_save_results` from `enhanced_gpc_automation_v2.py`, the most
complete of the five near-identical copies in the repository).

Modelling conventions:
* Python strings are `List Char` (`Str`); the document is split on `'\n'`
  exactly as `xml_content.split('\n')` does.
* Python floats are modelled as exact rationals (`ℚ`).  `float(s)` is
  `parseFloat?` (decimal/scientific grammar; the `inf`/`nan`/underscore
  extensions of Python's grammar never occur in this data and are omitted).
* The `re.search` calls are modelled by their leftmost lazy-match semantics:
  each `.*?LIT` step jumps to the earliest occurrence of `LIT`, `([^"]*)"`
  captures up to the next quote, `(\d+)"` captures a maximal nonempty digit
  run followed by a quote, and `([^<]*)</scalar>` captures up to the first
  `<`, which must start `</scalar>`.  (Full regex backtracking differs only
  on pathological lines that repeat the landmarks; no line of this grammar
  does.)
* Python `dict`s are insertion-ordered association lists; assignment to an
  existing key updates it in place (`rupsert`/`tupsert`).
* A raised exception is an `Except.error`; the blanket
  `try/except ... return {}` of the source is the outer match in
  `extractFromLines`.
-/

namespace GPC

abbrev Str := List Char

/-- Python `str.strip` default whitespace (ASCII part, which is all that occurs). -/
def wsp (c : Char) : Bool :=
  c == ' ' || c == '\t' || c == '\n' || c == '\r' || c == '\x0b' || c == '\x0c'

/-- Python `s.strip()`. -/
def stripE (s : Str) : Str :=
  ((s.dropWhile wsp).reverse.dropWhile wsp).reverse

/-- `leadsL needle hay` is true when `needle` starts `hay`. -/
def leadsL : Str → Str → Bool
  | [], _ => true
  | _ :: _, [] => false
  | a :: as, b :: bs => a == b && leadsL as bs

/-- Drop everything up to and including the first occurrence of `needle`
(`none` when it does not occur).  `needle` is always nonempty here. -/
def dropAfterFirst (needle : Str) : Str → Option Str
  | [] => none
  | c :: cs =>
    if leadsL needle (c :: cs) then some ((c :: cs).drop needle.length)
    else dropAfterFirst needle cs

/-- Python `needle in hay` (substring containment). -/
def containsL (hay needle : Str) : Bool :=
  (dropAfterFirst needle hay).isSome

/-- Content before the earliest occurrence of `tag` (none if `tag` absent). -/
def takeUntilTag (tag : Str) : Str → Option Str
  | [] => none
  | c :: cs =>
    if leadsL tag (c :: cs) then some []
    else (takeUntilTag tag cs).map (c :: ·)

/-- Numeric value of a digit string (used for `int()` on a `\d+` capture). -/
def digitsVal (s : Str) : Nat :=
  s.foldl (fun a c => 10 * a + (c.toNat - 48)) 0

/-- Python `content.split('\n')`. -/
def splitNL : Str → List Str
  | [] => [[]]
  | c :: t =>
    if c = '\n' then [] :: splitNL t
    else
      match splitNL t with
      | h :: r => (c :: h) :: r
      | [] => [[c]]

/-- Exponent suffix of Python's float grammar (after `e`/`E`). -/
def expPart (m : ℚ) (t : Str) : Option ℚ :=
  let (neg, t1) : Bool × Str :=
    match t with
    | '+' :: r => (false, r)
    | '-' :: r => (true, r)
    | r => (false, r)
  let ed := t1.takeWhile Char.isDigit
  if ed.isEmpty || !(t1.drop ed.length).isEmpty then none
  else some (if neg then m / (10 : ℚ) ^ digitsVal ed else m * (10 : ℚ) ^ digitsVal ed)

/-- Python `float(s)` on the decimal/scientific grammar, as an exact rational.
Fails (`ValueError`) exactly when the token is not numeric. -/
def parseFloat? (s : Str) : Option ℚ :=
  let (neg, s1) : Bool × Str :=
    match s with
    | '+' :: r => (false, r)
    | '-' :: r => (true, r)
    | r => (false, r)
  let ip := s1.takeWhile Char.isDigit
  let s2 := s1.drop ip.length
  let (fp, s3) : Str × Str :=
    match s2 with
    | '.' :: t => (t.takeWhile Char.isDigit, t.drop (t.takeWhile Char.isDigit).length)
    | _ => ([], s2)
  if ip.isEmpty && fp.isEmpty then none
  else
    let mant : ℚ := (digitsVal ip : ℚ) + (digitsVal fp : ℚ) / (10 : ℚ) ^ fp.length
    let signed : ℚ := if neg then -mant else mant
    match s3 with
    | [] => some signed
    | 'e' :: t => expPart signed t
    | 'E' :: t => expPart signed t
    | _ => none

/-! Regex models.  `nameSearch` is `re.search(r'<name>(.+?)</name>', line)`:
leftmost `<name>`, then the shortest nonempty capture up to `</name>`;
on failure the search resumes after that `<name>`. -/

def nameOpenT : Str := "<name>".data
def nameCloseT : Str := "</name>".data

def nameSearchFuel : Nat → Str → Option Str
  | 0, _ => none
  | f + 1, line =>
    match dropAfterFirst nameOpenT line with
    | none => none
    | some rest =>
      match rest with
      | [] => none
      | c :: cs =>
        match takeUntilTag nameCloseT cs with
        | some g => some (c :: g)
        | none => nameSearchFuel f rest

def nameSearch (line : Str) : Option Str := nameSearchFuel line.length line

/-- Capture `([^"]*)` followed by the mandatory closing quote. -/
def quotedCapture (s : Str) : Option (Str × Str) :=
  let g := s.takeWhile (fun c => !(c == '"'))
  match s.drop g.length with
  | '"' :: r => some (g, r)
  | _ => none

/-- Capture `(\d+)` followed by the mandatory closing quote. -/
def digitCapture (s : Str) : Option (Str × Str) :=
  let d := s.takeWhile Char.isDigit
  if d.isEmpty then none
  else
    match s.drop d.length with
    | '"' :: r => some (d, r)
    | _ => none

/-- Model of the tail `.*?>([^<]*)</scalar>` of every scalar pattern. -/
def valueCapture (s : Str) : Option Str :=
  match dropAfterFirst ['>'] s with
  | none => none
  | some r =>
    let v := r.takeWhile (fun c => !(c == '<'))
    if leadsL "</scalar>".data (r.drop v.length) then some v else none

def scalarOpenT : Str := "<scalar".data
def unitsAttrT : Str := "units=\"".data
def uncAttrT : Str := "uncertainty=\"".data
def peakAttrT : Str := "peak=\"".data

/-- Pattern `<scalar.*?units="([^"]*)".*?uncertainty="([^"]*)".*?peak="(\d+)".*?>([^<]*)</scalar>`. -/
def scalarMM1 (line : Str) : Option (Str × Str × Str × Str) := do
  let r1 ← dropAfterFirst scalarOpenT line
  let r2 ← dropAfterFirst unitsAttrT r1
  let (units, r3) ← quotedCapture r2
  let r4 ← dropAfterFirst uncAttrT r3
  let (unc, r5) ← quotedCapture r4
  let r6 ← dropAfterFirst peakAttrT r5
  let (pk, r7) ← digitCapture r6
  let v ← valueCapture r7
  return (units, unc, pk, v)

/-- Pattern `<scalar.*?units="([^"]*)".*?peak="(\d+)".*?uncertainty="([^"]*)".*?>([^<]*)</scalar>`. -/
def scalarMM2 (line : Str) : Option (Str × Str × Str × Str) := do
  let r1 ← dropAfterFirst scalarOpenT line
  let r2 ← dropAfterFirst unitsAttrT r1
  let (units, r3) ← quotedCapture r2
  let r4 ← dropAfterFirst peakAttrT r3
  let (pk, r5) ← digitCapture r4
  let r6 ← dropAfterFirst uncAttrT r5
  let (unc, r7) ← quotedCapture r6
  let v ← valueCapture r7
  return (units, pk, unc, v)

/-- Pattern `<scalar.*?uncertainty="([^"]*)".*?peak="(\d+)".*?>([^<]*)</scalar>`. -/
def scalarPD1 (line : Str) : Option (Str × Str × Str) := do
  let r1 ← dropAfterFirst scalarOpenT line
  let r2 ← dropAfterFirst uncAttrT r1
  let (unc, r3) ← quotedCapture r2
  let r4 ← dropAfterFirst peakAttrT r3
  let (pk, r5) ← digitCapture r4
  let v ← valueCapture r5
  return (unc, pk, v)

/-- Pattern `<scalar.*?peak="(\d+)".*?uncertainty="([^"]*)".*?>([^<]*)</scalar>`. -/
def scalarPD2 (line : Str) : Option (Str × Str × Str) := do
  let r1 ← dropAfterFirst scalarOpenT line
  let r2 ← dropAfterFirst peakAttrT r1
  let (pk, r3) ← digitCapture r2
  let r4 ← dropAfterFirst uncAttrT r3
  let (unc, r5) ← quotedCapture r4
  let v ← valueCapture r5
  return (pk, unc, v)

/-! Data model: `Measurement`, peak records, result table (insertion-ordered dicts). -/

structure Measurement where
  value : ℚ
  units : Str
  uncertainty_pct : ℚ
deriving DecidableEq

abbrev PeakRecord := List (Str × Measurement)
abbrev ResultTable := List (Nat × PeakRecord)

def rlook : PeakRecord → Str → Option Measurement
  | [], _ => none
  | (k, m) :: t, n => if k = n then some m else rlook t n

def rupsert : PeakRecord → Str → Measurement → PeakRecord
  | [], n, m => [(n, m)]
  | (k, m0) :: t, n, m => if k = n then (n, m) :: t else (k, m0) :: rupsert t n m

def tlook : ResultTable → Nat → Option PeakRecord
  | [], _ => none
  | (q, r) :: t, p => if q = p then some r else tlook t p

def tupsert : ResultTable → Nat → Str → Measurement → ResultTable
  | [], p, n, m => [(p, [(n, m)])]
  | (q, r) :: t, p, n, m =>
    if q = p then (q, rupsert r n m) :: t else (q, r) :: tupsert t p n m

/-- The binding recorded for peak `p`, name `n`. -/
def bindingAt (t : ResultTable) (p : Nat) (n : Str) : Option Measurement :=
  rlook ((tlook t p).getD []) n

/-- Exceptions raised inside the scan (`float(...)` and the division). -/
inductive PyErr
  | valueError
  | zeroDivision
deriving DecidableEq

def nAT : Str := "n/a".data
def invT : Str := "~Invalid".data

/-- Common tail of all three block handlers: convert the uncertainty capture
with `float` (raises first), test the sentinels on the stripped value text,
convert the value with `float`, divide (raises on a zero value), and upsert
`{'value', 'units', 'uncertainty_pct'}` at `peak_data[peak][name]`. -/
def finishScalar (units uncS peakS valS name : Str) (acc : ResultTable) :
    Except PyErr ResultTable :=
  match parseFloat? uncS with
  | none => .error .valueError
  | some unc =>
    let peak := digitsVal peakS
    let v := stripE valS
    if v = nAT ∨ v = invT then .ok acc
    else
      match parseFloat? v with
      | none => .error .valueError
      | some value =>
        if value = 0 then .error .zeroDivision
        else .ok (tupsert acc peak name ⟨value, units, unc / value * 100⟩)

/-- First ordering, then the fallback ordering, then the common tail. -/
def scalarDispatch (scalarLine name : Str) (acc : ResultTable) :
    Except PyErr ResultTable :=
  match scalarMM1 scalarLine with
  | some (u, s, p, v) => finishScalar u s p v name acc
  | none =>
    match scalarMM2 scalarLine with
    | some (u, p, s, v) => finishScalar u s p v name acc
    | none => .ok acc

/-- The `molar mass` branch: any extracted name is recorded. -/
def stepMolar (nameLine scalarLine : Str) (acc : ResultTable) :
    Except PyErr ResultTable :=
  match nameSearch nameLine with
  | none => .ok acc
  | some name => scalarDispatch scalarLine name acc

def mwmnT : Str := "Mw/Mn".data
def pdiNameT : Str := "<name>Mw/Mn</name>".data

/-- The `polydispersity` branch: only a literal `<name>Mw/Mn</name>` line is
accepted, and the record is stored under `'Mw/Mn'` with empty units. -/
def stepPDI (nameLine scalarLine : Str) (acc : ResultTable) :
    Except PyErr ResultTable :=
  if containsL nameLine pdiNameT then
    match scalarPD1 scalarLine with
    | some (s, p, v) => finishScalar [] s p v mwmnT acc
    | none =>
      match scalarPD2 scalarLine with
      | some (p, s, v) => finishScalar [] s p v mwmnT acc
      | none => .ok acc
  else .ok acc

def rzT : Str := "rz".data

/-- The `rms radius` branch: only the name `rz` is recorded. -/
def stepRMS (nameLine scalarLine : Str) (acc : ResultTable) :
    Except PyErr ResultTable :=
  match nameSearch nameLine with
  | none => .ok acc
  | some name => if name = rzT then scalarDispatch scalarLine rzT acc else .ok acc

def mmTagT : Str := "<result type=\"molar mass\">".data
def pdiTagT : Str := "<result type=\"polydispersity\">".data
def rmsTagT : Str := "<result type=\"rms radius\">".data

/-- The line scan of `extract_peak_results`: every line is tested as a
potential block start, the two following lines are used as name and scalar
lines, and the cursor always advances by exactly one line. -/
def scanLines : List Str → ResultTable → Except PyErr ResultTable
  | [], acc => .ok acc
  | l :: rest, acc =>
    let line := stripE l
    if containsL line mmTagT then
      match rest with
      | nl :: sl :: _ =>
        match stepMolar (stripE nl) (stripE sl) acc with
        | .ok a => scanLines rest a
        | .error e => .error e
      | _ => scanLines rest acc
    else if containsL line pdiTagT then
      match rest with
      | nl :: sl :: _ =>
        match stepPDI (stripE nl) (stripE sl) acc with
        | .ok a => scanLines rest a
        | .error e => .error e
      | _ => scanLines rest acc
    else if containsL line rmsTagT then
      match rest with
      | nl :: sl :: _ =>
        match stepRMS (stripE nl) (stripE sl) acc with
        | .ok a => scanLines rest a
        | .error e => .error e
      | _ => scanLines rest acc
    else scanLines rest acc

/-- The blanket `try/except` of the source: an internal exception discards
everything and yields the empty table. -/
def extractFromLines (ls : List Str) : ResultTable :=
  match scanLines ls [] with
  | .ok t => t
  | .error _ => []

/-- `extract_peak_results(xml_content)`. -/
def extract_peak_results (content : Str) : ResultTable :=
  extractFromLines (splitNL content)

/-! Formatter.  Python's fixed/scientific float formatting is modelled on
exact rationals with round-half-even (the rounding Python applies to the
value being formatted). -/

def PDI_DECIMAL_PLACES : Nat := 3
def MW_DECIMAL_PLACES : Nat := 1

def natStrAux : Nat → Nat → Str
  | 0, _ => []
  | _ + 1, 0 => []
  | f + 1, n => natStrAux f (n / 10) ++ [Char.ofNat (48 + n % 10)]

/-- Decimal rendering of a natural number (`str(n)`). -/
def natStr (n : Nat) : Str := if n = 0 then ['0'] else natStrAux (n + 1) n

def padZeros (p : Nat) (s : Str) : Str := List.replicate (p - s.length) '0' ++ s

/-- Round to the nearest integer, ties to even. -/
def roundHalfEven (q : ℚ) : ℤ :=
  let f := ⌊q⌋
  let r := q - (f : ℚ)
  if r < (1 : ℚ) / 2 then f
  else if (1 : ℚ) / 2 < r then f + 1
  else if f % 2 = 0 then f else f + 1

/-- Python `f"{q:.pf}"` (fixed-point, `p` fractional digits). -/
def fmtFixed (q : ℚ) (p : Nat) : Str :=
  let n := (roundHalfEven (|q| * (10 : ℚ) ^ p)).toNat
  let sgn : Str := if q < 0 then ['-'] else []
  let ipart := natStr (n / 10 ^ p)
  let fpart := padZeros p (natStr (n % 10 ^ p))
  if p = 0 then sgn ++ ipart else sgn ++ ipart ++ ['.'] ++ fpart

def nlog10 : Nat → Nat → Nat
  | 0, _ => 0
  | f + 1, n => if n < 10 then 0 else nlog10 f (n / 10) + 1

def qpow10 (k : ℤ) : ℚ :=
  if 0 ≤ k then (10 : ℚ) ^ k.toNat else ((10 : ℚ) ^ (-k).toNat)⁻¹

/-- The decimal exponent of a positive rational: `10 ^ sciExp q ≤ q < 10 ^ (sciExp q + 1)`. -/
def sciExp (q : ℚ) : ℤ :=
  let a := q.num.natAbs
  let e0 : ℤ := (nlog10 a a : ℤ) - (nlog10 q.den q.den : ℤ)
  if q < qpow10 e0 then e0 - 1
  else if qpow10 (e0 + 1) ≤ q then e0 + 1
  else e0

/-- Python `f"{q:.3e}"` (normalized scientific notation, 3 fractional digits,
sign and at least two digits in the exponent). -/
def fmtSci3 (q : ℚ) : Str :=
  if q = 0 then "0.000e+00".data
  else
    let sgn : Str := if q < 0 then ['-'] else []
    let a := |q|
    let e := sciExp a
    let n0 := (roundHalfEven (a * qpow10 (3 - e))).toNat
    let ne : Nat × ℤ := if n0 = 10000 then (1000, e + 1) else (n0, e)
    let ds := natStr ne.1
    let es : Str :=
      if 0 ≤ ne.2 then "e+".data ++ padZeros 2 (natStr ne.2.toNat)
      else "e-".data ++ padZeros 2 (natStr (-ne.2).toNat)
    sgn ++ ds.take 1 ++ ['.'] ++ ds.drop 1 ++ es

/-- `format_value_with_uncertainty(value, units, uncertainty_pct, extra_precision)`.
The separator literal in the source file is the two characters `¬±`
(U+00AC U+00B1, an encoding corruption of `±` baked into the file). -/
def format_value_with_uncertainty (value : ℚ) (units : Str) (uncertainty_pct : ℚ)
    (extra_precision : Bool) : Str :=
  let formatted_value := if (1000 : ℚ) ≤ value then fmtSci3 value else fmtFixed value 1
  let precision := if extra_precision then PDI_DECIMAL_PLACES else MW_DECIMAL_PLACES
  formatted_value ++ " (¬±".data ++ fmtFixed uncertainty_pct precision ++ "%)".data

/-- Modelled from the spec: the formatter contract
`format(value, uncertainty_pct, precision)` of section 4.2, which appends the
uncertainty as a plain `" (±...%)"` suffix with `precision` fractional digits. -/
def formatSpec (value uncertainty_pct : ℚ) (precision : Nat) : Str :=
  (if (1000 : ℚ) ≤ value then fmtSci3 value else fmtFixed value 1)
    ++ " (±".data ++ fmtFixed uncertainty_pct precision ++ "%)".data

/-! Report rendering: the `summary_lines` list built by
`display_and_save_results`.  The header strings are taken byte-for-byte from
the source file (they contain mojibake markers such as `üî¨`). -/

def eq50 : Str := List.replicate 50 '='
def dash30 : Str := List.replicate 30 '-'
def titleT : Str := "üéØ MOLECULAR WEIGHT ANALYSIS RESULTS".data
def peakMarkT : Str := "üî¨ Peak ".data
def massHdrT : Str := "üìä Molar mass moments (g/mol)".data
def pdiHdrT : Str := "üìà Polydispersity".data
def rmsHdrT : Str := "üîµ RMS radius moments (nm)".data

def nMnT : Str := "Mn".data
def nMwT : Str := "Mw".data
def nMpT : Str := "Mp".data
def nMzT : Str := "Mz".data

/-- The `summary_lines` entry for one present molar mass moment: `"  Mn: {formatted}"`. -/
def momentEntry (label : Str) (o : Option Measurement) : List Str :=
  match o with
  | some m =>
    ["  ".data ++ label ++ ": ".data
      ++ format_value_with_uncertainty m.value m.units m.uncertainty_pct false]
  | none => []

/-- The `summary_lines` block contributed by one peak.  The molar-mass guard
is `any(key in data for key in ['Mn', 'Mw', 'Mp', 'Mz'])`, but only
`Mn`/`Mw`/`Mp` lines are ever emitted. -/
def renderPeak (n : Nat) (r : PeakRecord) : List Str :=
  ['\n' :: (peakMarkT ++ natStr n), dash30]
  ++ (if (rlook r nMnT).isSome || (rlook r nMwT).isSome
        || (rlook r nMpT).isSome || (rlook r nMzT).isSome then
        [massHdrT, []]
        ++ momentEntry nMnT (rlook r nMnT)
        ++ momentEntry nMwT (rlook r nMwT)
        ++ momentEntry nMpT (rlook r nMpT)
        ++ [[]]
      else [])
  ++ (match rlook r mwmnT with
      | some m =>
        [pdiHdrT, [],
         "  Mw/Mn: ".data ++ format_value_with_uncertainty m.value [] m.uncertainty_pct true,
         []]
      | none => [])
  ++ (match rlook r rzT with
      | some m =>
        [rmsHdrT, [],
         "  rz: ".data ++ format_value_with_uncertainty m.value m.units m.uncertainty_pct false,
         []]
      | none => [])

/-- The full `summary_lines` list: a banner, then one block per peak index in
`sorted(peak_data.keys())` order. -/
def renderReport (t : ResultTable) : List Str :=
  [eq50, titleT, eq50]
  ++ ((t.map Prod.fst).insertionSort (· ≤ ·)).flatMap
      (fun p => renderPeak p ((tlook t p).getD []))

/-! Constructors for well-formed block lines (used to quantify over blocks),
and concrete documents used as test inputs. -/

/-- A name line `<name>NAME</name>`. -/
def mkNameLine (name : Str) : Str := "<name>".data ++ name ++ "</name>".data

/-- A scalar line in the first observed attribute ordering
`units, uncertainty, peak`. -/
def mkScalarA (u s p v : Str) : Str :=
  "<scalar units=\"".data ++ u ++ "\" uncertainty=\"".data ++ s
    ++ "\" peak=\"".data ++ p ++ "\">".data ++ v ++ "</scalar>".data

/-- A scalar line in the second observed attribute ordering
`units, peak, uncertainty`. -/
def mkScalarB (u p s v : Str) : Str :=
  "<scalar units=\"".data ++ u ++ "\" peak=\"".data ++ p
    ++ "\" uncertainty=\"".data ++ s ++ "\">".data ++ v ++ "</scalar>".data

/-- One well-formed `molar mass`/`Mn` block (peak 1, 15000 g/mol ± 300). -/
def exGoodOnly : Str :=
  "<result type=\"molar mass\">\n<name>Mn</name>\n<scalar units=\"g/mol\" uncertainty=\"300\" peak=\"1\">15000</scalar>".data

/-- Two well-formed `molar mass` blocks for the same peak, names `Mn` and `Mw`. -/
def exGoodPair : Str :=
  "<result type=\"molar mass\">\n<name>Mn</name>\n<scalar units=\"g/mol\" uncertainty=\"300\" peak=\"1\">15000</scalar>\n<result type=\"molar mass\">\n<name>Mw</name>\n<scalar units=\"g/mol\" peak=\"1\" uncertainty=\"600\">30000</scalar>".data

/-- A well-formed `Mn` block followed by a block whose value text is `0`. -/
def exZeroAfterGood : Str :=
  "<result type=\"molar mass\">\n<name>Mn</name>\n<scalar units=\"g/mol\" uncertainty=\"300\" peak=\"1\">15000</scalar>\n<result type=\"molar mass\">\n<name>Mp</name>\n<scalar units=\"g/mol\" uncertainty=\"50\" peak=\"1\">0</scalar>".data

/-- A well-formed `Mn` block, a block whose value token is the non-numeric
`abc`, then a well-formed `Mw` block. -/
def exBadToken : Str :=
  "<result type=\"molar mass\">\n<name>Mn</name>\n<scalar units=\"g/mol\" uncertainty=\"300\" peak=\"1\">15000</scalar>\n<result type=\"molar mass\">\n<name>Mp</name>\n<scalar units=\"g/mol\" uncertainty=\"50\" peak=\"1\">abc</scalar>\n<result type=\"molar mass\">\n<name>Mw</name>\n<scalar units=\"g/mol\" peak=\"1\" uncertainty=\"600\">30000</scalar>".data

/-- Two well-formed blocks (`Mn`, `Mw`) followed by a zero-value block. -/
def exDiscard : Str :=
  "<result type=\"molar mass\">\n<name>Mn</name>\n<scalar units=\"g/mol\" uncertainty=\"300\" peak=\"1\">15000</scalar>\n<result type=\"molar mass\">\n<name>Mw</name>\n<scalar units=\"g/mol\" peak=\"1\" uncertainty=\"600\">30000</scalar>\n<result type=\"polydispersity\">\n<name>Mw/Mn</name>\n<scalar uncertainty=\"0.04\" peak=\"1\">0.0</scalar>".data

/-- Two `molar mass` blocks with the same peak and the same name `Mn`. -/
def exDupName : Str :=
  "<result type=\"molar mass\">\n<name>Mn</name>\n<scalar units=\"g/mol\" uncertainty=\"300\" peak=\"1\">15000</scalar>\n<result type=\"molar mass\">\n<name>Mn</name>\n<scalar units=\"g/mol\" uncertainty=\"600\" peak=\"1\">30000</scalar>".data

/-- A single `molar mass` block whose name is `Mz`. -/
def exMzDoc : Str :=
  "<result type=\"molar mass\">\n<name>Mz</name>\n<scalar units=\"g/mol\" uncertainty=\"500\" peak=\"1\">1000000</scalar>".data

/-- An `rms radius` block whose name is `rw` (not `rz`). -/
def exRmsOther : Str :=
  "<result type=\"rms radius\">\n<name>rw</name>\n<scalar units=\"nm\" uncertainty=\"0.5\" peak=\"1\">25.0</scalar>".data

/-- The name line and zero-value scalar line of `exZeroAfterGood`'s second block. -/
def mpNameL : Str := "<name>Mp</name>".data
def zeroScalarL : Str := "<scalar units=\"g/mol\" uncertainty=\"50\" peak=\"1\">0</scalar>".data

/-- The name line and non-numeric scalar line of `exBadToken`'s second block. -/
def badScalarL : Str := "<scalar units=\"g/mol\" uncertainty=\"50\" peak=\"1\">abc</scalar>".data

/-- A table whose only record holds only the `Mz` moment. -/
def exMzTable : ResultTable := [(1, [(nMzT, ⟨1000000, "g/mol".data, 2⟩)])]

/-! Report-inspection helpers (for stating structural facts about the
rendered report). -/

/-- Recover the peak index text from a peak-header line. -/
def peakHdrOf (l : Str) : Option Str :=
  if leadsL ('\n' :: peakMarkT) l then some (l.drop ('\n' :: peakMarkT).length) else none

/-- Classify a line as one of the three molar-mass-moment lines. -/
def momentOf (l : Str) : Option Str :=
  if leadsL "  Mn: ".data l then some nMnT
  else if leadsL "  Mw: ".data l then some nMwT
  else if leadsL "  Mp: ".data l then some nMpT
  else none

/-- `[name]` when the lookup succeeded, `[]` otherwise. -/
def optName (name : Str) (o : Option Measurement) : List Str :=
  if o.isSome then [name] else []

/-- A line containing none of the three result-type tags (so the scan
ignores it as a potential block start). -/
def noTags (l : Str) : Bool :=
  !(containsL l mmTagT || containsL l pdiTagT || containsL l rmsTagT)

/-- Assorted concrete block lines for witnesses. -/
def mnNameL : Str := "<name>Mn</name>".data
def naScalarL : Str := "<scalar units=\"g/mol\" uncertainty=\"300\" peak=\"1\">n/a</scalar>".data
def rwNameL : Str := "<name>rw</name>".data
def rzNameL : Str := "<name>rz</name>".data
def pdiNameLine : Str := "<name>Mw/Mn</name>".data
def pdiScalarL : Str := "<scalar uncertainty=\"0.04\" peak=\"1\">2.0</scalar>".data
def rzScalarL : Str := "<scalar units=\"nm\" uncertainty=\"0.5\" peak=\"1\">25.0</scalar>".data

/-! ## Theorems -/

/-- When the sentinel test on the stripped value text succeeds, the common
tail leaves the table untouched. -/
theorem finishScalar_sentinel (u s p v name : Str) (acc : ResultTable) (unc : ℚ)
    (h1 : parseFloat? s = some unc) (h2 : stripE v = nAT ∨ stripE v = invT) :
    finishScalar u s p v name acc = .ok acc := by
  simp only [finishScalar, h1]
  rw [if_pos h2]

/-- When all conversions succeed and the value is nonzero, the common tail
upserts exactly one measurement. -/
theorem finishScalar_records (u s p v name : Str) (acc : ResultTable) (unc value : ℚ)
    (h1 : parseFloat? s = some unc) (h2 : stripE v ≠ nAT) (h3 : stripE v ≠ invT)
    (h4 : parseFloat? (stripE v) = some value) (h5 : value ≠ 0) :
    finishScalar u s p v name acc
      = .ok (tupsert acc (digitsVal p) name ⟨value, u, unc / value * 100⟩) := by
  simp only [finishScalar, h1]
  rw [if_neg (not_or.mpr ⟨h2, h3⟩)]
  simp only [h4]
  rw [if_neg h5]

theorem rlook_rupsert (r : PeakRecord) (n q : Str) (m : Measurement) :
    rlook (rupsert r n m) q = if n = q then some m else rlook r q := by
  induction r with
  | nil => simp [rupsert, rlook]
  | cons hd tl ih =>
    obtain ⟨k, m0⟩ := hd
    simp only [rupsert]
    by_cases hk : k = n
    · rw [if_pos hk]
      by_cases hq : n = q
      · simp [rlook, hq]
      · have hkq : ¬ k = q := by rw [hk]; exact hq
        simp [rlook, hq, hkq]
    · rw [if_neg hk]
      by_cases hq : k = q
      · have hnq : ¬ n = q := fun h => hk (hq.trans h.symm)
        simp [rlook, hq, hnq]
      · simp [rlook, hq, ih]

theorem tlook_tupsert (t : ResultTable) (p : Nat) (n : Str) (m : Measurement) (q : Nat) :
    tlook (tupsert t p n m) q
      = if p = q then some (rupsert ((tlook t p).getD []) n m) else tlook t q := by
  induction t with
  | nil => by_cases h : p = q <;> simp [tupsert, tlook, rupsert, h]
  | cons hd tl ih =>
    obtain ⟨k, r⟩ := hd
    simp only [tupsert]
    by_cases hk : k = p
    · rw [if_pos hk]
      by_cases hq : p = q
      · have hkq : k = q := by rw [hk, hq]
        simp [tlook, hq, hkq, hk]
      · have hkq : ¬ k = q := by rw [hk]; exact hq
        simp [tlook, hq, hkq]
    · rw [if_neg hk]
      by_cases hq : k = q
      · have hpq : ¬ p = q := fun h => hk (hq.trans h.symm)
        simp [tlook, hq, hpq]
      · simp [tlook, hq, hk, ih]

theorem bindingAt_tupsert (t : ResultTable) (p : Nat) (n : Str) (m : Measurement)
    (q : Nat) (nm : Str) :
    bindingAt (tupsert t p n m) q nm
      = if p = q then (if n = nm then some m else bindingAt t q nm)
        else bindingAt t q nm := by
  unfold bindingAt
  rw [tlook_tupsert]
  by_cases hp : p = q
  · simp [hp, rlook_rupsert]
  · simp [hp]

/-- C1 (amended): a block whose value text parses to exactly `0` makes the
scan raise `ZeroDivisionError` internally, whatever came before or follows;
the blanket handler then returns the empty table, so the zero-value
measurement is not recorded and every other measurement of the document is
discarded.  No exception reaches the caller. -/
theorem claim1_zero_value_aborts :
    (∀ (suf : List Str) (acc : ResultTable),
      scanLines (mmTagT :: mpNameL :: zeroScalarL :: suf) acc = .error .zeroDivision) ∧
    extract_peak_results exZeroAfterGood = [] :=
  ⟨fun _ _ => rfl, rfl⟩

/-- C1 (counterexample): on a document holding one well-formed `Mn` block and
one zero-value block, extraction returns the empty table — the `Mn`
measurement that the claim says is unaffected is gone, and no measurement
with an undefined uncertainty percentage is recorded (the same `Mn` block
alone does get extracted). -/
theorem claim1_counterexample :
    extract_peak_results exZeroAfterGood = [] ∧
    extract_peak_results exGoodOnly = [(1, [(nMnT, ⟨15000, "g/mol".data, 2⟩)])] :=
  ⟨rfl, rfl⟩

/-- C2 (amended): a block whose value token is non-numeric (and not a
sentinel) makes `float()` raise `ValueError`; the blanket handler returns the
empty table, so the malformed block aborts extraction of the whole document
instead of being skipped. -/
theorem claim2_bad_token_aborts :
    (∀ (suf : List Str) (acc : ResultTable),
      scanLines (mmTagT :: mpNameL :: badScalarL :: suf) acc = .error .valueError) ∧
    extract_peak_results exBadToken = [] :=
  ⟨fun _ _ => rfl, rfl⟩

/-- C2 (counterexample): in a document with a well-formed `Mn` block, a block
whose value token is `abc`, and a well-formed `Mw` block, extraction returns
the empty table — neither surrounding well-formed block survives, though the
same two blocks without the malformed one are both extracted. -/
theorem claim2_counterexample :
    extract_peak_results exBadToken = [] ∧
    extract_peak_results exGoodPair
      = [(1, [(nMnT, ⟨15000, "g/mol".data, 2⟩), (nMwT, ⟨30000, "g/mol".data, 2⟩)])] :=
  ⟨rfl, rfl⟩

/-- C9: the extractor never propagates an exception (it is a total function
built over `Except`); an internal error makes it return the empty table,
discarding every measurement parsed before the failure point, and otherwise
it returns the scanned table.  Concretely, a document with two well-formed
blocks followed by a zero-value block yields the empty table, while the
two-block prefix alone yields both measurements. -/
theorem claim9_blanket_handler :
    (∀ (ls : List Str) (e : PyErr), scanLines ls [] = .error e → extractFromLines ls = []) ∧
    (∀ (ls : List Str) (t : ResultTable), scanLines ls [] = .ok t → extractFromLines ls = t) ∧
    extract_peak_results exDiscard = [] ∧
    extract_peak_results exGoodPair
      = [(1, [(nMnT, ⟨15000, "g/mol".data, 2⟩), (nMwT, ⟨30000, "g/mol".data, 2⟩)])] := by
  refine ⟨?_, ?_, rfl, rfl⟩
  · intro ls e h
    unfold extractFromLines
    rw [h]
  · intro ls t h
    unfold extractFromLines
    rw [h]

/-- C9 (witness): the error branch of the handler at a concrete document. -/
theorem claim9_witness : extractFromLines (splitNL exDiscard) = [] :=
  claim9_blanket_handler.1 (splitNL exDiscard) .zeroDivision rfl

/-- C3: a measurement block whose scalar text content (stripped) equals
`n/a` or `~Invalid` yields no entry: whichever of the three block types
matched and whichever attribute ordering parsed, the handler returns the
accumulated table unchanged — no placeholder Measurement is inserted. -/
theorem claim3_sentinel_blocks_skipped :
    (∀ (nl sl : Str) (acc : ResultTable) (name u s p v : Str) (unc : ℚ),
      nameSearch nl = some name →
      (scalarMM1 sl = some (u, s, p, v) ∨
        (scalarMM1 sl = none ∧ scalarMM2 sl = some (u, p, s, v))) →
      parseFloat? s = some unc →
      (stripE v = nAT ∨ stripE v = invT) →
      stepMolar nl sl acc = .ok acc) ∧
    (∀ (nl sl : Str) (acc : ResultTable) (s p v : Str) (unc : ℚ),
      containsL nl pdiNameT = true →
      (scalarPD1 sl = some (s, p, v) ∨
        (scalarPD1 sl = none ∧ scalarPD2 sl = some (p, s, v))) →
      parseFloat? s = some unc →
      (stripE v = nAT ∨ stripE v = invT) →
      stepPDI nl sl acc = .ok acc) ∧
    (∀ (nl sl : Str) (acc : ResultTable) (u s p v : Str) (unc : ℚ),
      nameSearch nl = some rzT →
      (scalarMM1 sl = some (u, s, p, v) ∨
        (scalarMM1 sl = none ∧ scalarMM2 sl = some (u, p, s, v))) →
      parseFloat? s = some unc →
      (stripE v = nAT ∨ stripE v = invT) →
      stepRMS nl sl acc = .ok acc) := by
  refine ⟨?_, ?_, ?_⟩
  · intro nl sl acc name u s p v unc hn hsc hu hsent
    rcases hsc with h1 | ⟨h1, h2⟩
    · simp only [stepMolar, hn, scalarDispatch, h1]
      exact finishScalar_sentinel u s p v name acc unc hu hsent
    · simp only [stepMolar, hn, scalarDispatch, h1, h2]
      exact finishScalar_sentinel u s p v name acc unc hu hsent
  · intro nl sl acc s p v unc hc hsc hu hsent
    rcases hsc with h1 | ⟨h1, h2⟩
    · simp only [stepPDI, hc, if_true, h1]
      exact finishScalar_sentinel [] s p v mwmnT acc unc hu hsent
    · simp only [stepPDI, hc, if_true, h1, h2]
      exact finishScalar_sentinel [] s p v mwmnT acc unc hu hsent
  · intro nl sl acc u s p v unc hn hsc hu hsent
    rcases hsc with h1 | ⟨h1, h2⟩
    · simp only [stepRMS, hn, if_pos rfl, scalarDispatch, h1]
      exact finishScalar_sentinel u s p v rzT acc unc hu hsent
    · simp only [stepRMS, hn, if_pos rfl, scalarDispatch, h1, h2]
      exact finishScalar_sentinel u s p v rzT acc unc hu hsent

/-- C3 (witness): a concrete `molar mass` block whose value text is `n/a`
leaves the empty table empty. -/
theorem claim3_witness : stepMolar mnNameL naScalarL [] = .ok [] :=
  claim3_sentinel_blocks_skipped.1 mnNameL naScalarL [] nMnT "g/mol".data
    "300".data ['1'] "n/a".data 300 (by decide) (Or.inl (by decide)) (by decide)
    (Or.inl (by decide))

/-- C8: type-specific name filtering.  An `rms radius` block whose name is
not `rz` (or has no parseable name) is ignored; a `polydispersity` block
whose name line does not contain `<name>Mw/Mn</name>` is ignored; matching
`rz` blocks are recorded under `rz` with their units, and matching `Mw/Mn`
blocks are recorded under `Mw/Mn` with the synthetic empty units string.
Concretely, a document holding only an `rms radius` block named `rw`
extracts to the empty table. -/
theorem claim8_name_filters :
    (∀ (nl sl : Str) (acc : ResultTable) (name : Str),
      nameSearch nl = some name → name ≠ rzT → stepRMS nl sl acc = .ok acc) ∧
    (∀ (nl sl : Str) (acc : ResultTable),
      nameSearch nl = none → stepRMS nl sl acc = .ok acc) ∧
    (∀ (nl sl : Str) (acc : ResultTable),
      containsL nl pdiNameT = false → stepPDI nl sl acc = .ok acc) ∧
    (∀ (nl sl : Str) (acc : ResultTable) (u s p v : Str) (unc value : ℚ),
      nameSearch nl = some rzT → scalarMM1 sl = some (u, s, p, v) →
      parseFloat? s = some unc → stripE v ≠ nAT → stripE v ≠ invT →
      parseFloat? (stripE v) = some value → value ≠ 0 →
      stepRMS nl sl acc
        = .ok (tupsert acc (digitsVal p) rzT ⟨value, u, unc / value * 100⟩)) ∧
    (∀ (nl sl : Str) (acc : ResultTable) (s p v : Str) (unc value : ℚ),
      containsL nl pdiNameT = true → scalarPD1 sl = some (s, p, v) →
      parseFloat? s = some unc → stripE v ≠ nAT → stripE v ≠ invT →
      parseFloat? (stripE v) = some value → value ≠ 0 →
      stepPDI nl sl acc
        = .ok (tupsert acc (digitsVal p) mwmnT ⟨value, [], unc / value * 100⟩)) ∧
    extract_peak_results exRmsOther = [] := by
  refine ⟨?_, ?_, ?_, ?_, ?_, rfl⟩
  · intro nl sl acc name hn hne
    simp only [stepRMS, hn]
    rw [if_neg hne]
  · intro nl sl acc hn
    simp only [stepRMS, hn]
  · intro nl sl acc hc
    simp only [stepPDI, hc, Bool.false_eq_true, if_false]
  · intro nl sl acc u s p v unc value hn hsc hu h2 h3 hv hz
    simp only [stepRMS, hn, if_pos rfl, scalarDispatch, hsc]
    exact finishScalar_records u s p v rzT acc unc value hu h2 h3 hv hz
  · intro nl sl acc s p v unc value hc hsc hu h2 h3 hv hz
    simp only [stepPDI, hc, if_true, hsc]
    exact finishScalar_records [] s p v mwmnT acc unc value hu h2 h3 hv hz

/-- C8 (witness): the filters and the two positive cases at concrete blocks. -/
theorem claim8_witness :
    stepRMS rwNameL rzScalarL [] = .ok [] ∧
    stepPDI mnNameL pdiScalarL [] = .ok [] ∧
    stepRMS rzNameL rzScalarL [] = .ok [(1, [(rzT, ⟨25, "nm".data, 2⟩)])] ∧
    stepPDI pdiNameLine pdiScalarL [] = .ok [(1, [(mwmnT, ⟨2, [], 2⟩)])] := by
  refine ⟨?_, ?_, ?_, ?_⟩
  · exact claim8_name_filters.1 rwNameL rzScalarL [] "rw".data (by decide) (by decide)
  · exact claim8_name_filters.2.2.1 mnNameL pdiScalarL [] (by decide)
  · rw [claim8_name_filters.2.2.2.1 rzNameL rzScalarL [] "nm".data "0.5".data ['1']
      "25.0".data (1 / 2) 25 (by decide) (by decide) (by decide) (by decide) (by decide)
      (by decide) (by decide)]
    rfl
  · rw [claim8_name_filters.2.2.2.2.1 pdiNameLine pdiScalarL [] "0.04".data ['1']
      "2.0".data (1 / 25) 2 (by decide) (by decide) (by decide) (by decide) (by decide)
      (by decide) (by decide)]
    rfl

/-- C10: when two blocks yield the same peak index and the same name, the
later block's Measurement replaces the earlier one (last-wins upsert), and
the `molar mass` branch applies no name filter — any extracted name,
including `Mz`, is recorded.  Concretely, two `Mn` blocks for peak 1 leave
only the second value, and a lone `Mz` block is recorded. -/
theorem claim10_last_wins_no_molar_filter :
    (∀ (t : ResultTable) (p : Nat) (n : Str) (m : Measurement),
      bindingAt (tupsert t p n m) p n = some m) ∧
    (∀ (nl sl : Str) (acc : ResultTable) (name u s p v : Str) (unc value : ℚ),
      nameSearch nl = some name → scalarMM1 sl = some (u, s, p, v) →
      parseFloat? s = some unc → stripE v ≠ nAT → stripE v ≠ invT →
      parseFloat? (stripE v) = some value → value ≠ 0 →
      stepMolar nl sl acc
        = .ok (tupsert acc (digitsVal p) name ⟨value, u, unc / value * 100⟩)) ∧
    extract_peak_results exDupName = [(1, [(nMnT, ⟨30000, "g/mol".data, 2⟩)])] ∧
    extract_peak_results exMzDoc = [(1, [(nMzT, ⟨1000000, "g/mol".data, 1 / 20⟩)])] := by
  refine ⟨?_, ?_, rfl, rfl⟩
  · intro t p n m
    rw [bindingAt_tupsert]
    simp
  · intro nl sl acc name u s p v unc value hn hsc hu h2 h3 hv hz
    simp only [stepMolar, hn, scalarDispatch, hsc]
    exact finishScalar_records u s p v name acc unc value hu h2 h3 hv hz

/-- C10 (witness): a concrete `Mz` block is recorded by the molar-mass branch. -/
theorem claim10_witness :
    stepMolar "<name>Mz</name>".data
        "<scalar units=\"g/mol\" uncertainty=\"500\" peak=\"1\">1000000</scalar>".data []
      = .ok [(1, [(nMzT, ⟨1000000, "g/mol".data, 1 / 20⟩)])] := by
  rw [claim10_last_wins_no_molar_filter.2.1 "<name>Mz</name>".data
      "<scalar units=\"g/mol\" uncertainty=\"500\" peak=\"1\">1000000</scalar>".data []
      nMzT "g/mol".data "500".data ['1'] "1000000".data 500 1000000
      (by decide) (by decide) (by decide) (by decide) (by decide) (by decide) (by decide)]
  rfl

/-- C5 (code bug): the formatter renders the value in scientific notation
with 3 fractional digits when it is at least 1000 and with 1 fixed decimal
otherwise, and renders the uncertainty at the precision selected by the
caller's flag — but the appended separator is the source file's literal
`" (¬±"` (U+00AC U+00B1, an encoding corruption of `±`), so
`format(22.3, 1.2, 1)` returns `"22.3 (¬±1.2%)"` where the claim expects
`"22.3 (±1.2%)"` (the spec-modelled contract `formatSpec` produces the
latter). -/
theorem claim5_formatter_divergence :
    (∀ (v : ℚ) (u : Str) (pct : ℚ) (b : Bool),
      format_value_with_uncertainty v u pct b
        = (if (1000 : ℚ) ≤ v then fmtSci3 v else fmtFixed v 1)
            ++ " (¬±".data
            ++ fmtFixed pct (if b then PDI_DECIMAL_PLACES else MW_DECIMAL_PLACES)
            ++ "%)".data) ∧
    format_value_with_uncertainty (22.3 : ℚ) [] (1.2 : ℚ) false = "22.3 (¬±1.2%)".data ∧
    formatSpec (22.3 : ℚ) (1.2 : ℚ) 1 = "22.3 (±1.2%)".data ∧
    fmtSci3 (21571.63613 : ℚ) = "2.157e+04".data ∧
    format_value_with_uncertainty (2 : ℚ) [] (2 : ℚ) true = "2.0 (¬±2.000%)".data ∧
    format_value_with_uncertainty (30000 : ℚ) "g/mol".data (2 : ℚ) false
      = "3.000e+04 (¬±2.0%)".data :=
  ⟨fun _ _ _ _ => rfl, rfl, rfl, rfl, rfl, rfl⟩

/-- The common tail never removes an existing binding. -/
theorem finishScalar_preserves (u s p v name : Str) (acc a : ResultTable)
    (h : finishScalar u s p v name acc = .ok a) (q : Nat) (nm : Str)
    (hb : (bindingAt acc q nm).isSome) : (bindingAt a q nm).isSome := by
  simp only [finishScalar] at h
  split at h
  · exact absurd h (by simp)
  · split at h
    · cases h; exact hb
    · split at h
      · exact absurd h (by simp)
      · split at h
        · exact absurd h (by simp)
        · cases h
          rw [bindingAt_tupsert]
          split
          · split
            · simp
            · exact hb
          · exact hb

theorem scalarDispatch_preserves (sl name : Str) (acc a : ResultTable)
    (h : scalarDispatch sl name acc = .ok a) (q : Nat) (nm : Str)
    (hb : (bindingAt acc q nm).isSome) : (bindingAt a q nm).isSome := by
  simp only [scalarDispatch] at h
  split at h
  · exact finishScalar_preserves _ _ _ _ _ _ _ h q nm hb
  · split at h
    · exact finishScalar_preserves _ _ _ _ _ _ _ h q nm hb
    · cases h; exact hb

theorem stepMolar_preserves (nl sl : Str) (acc a : ResultTable)
    (h : stepMolar nl sl acc = .ok a) (q : Nat) (nm : Str)
    (hb : (bindingAt acc q nm).isSome) : (bindingAt a q nm).isSome := by
  simp only [stepMolar] at h
  split at h
  · cases h; exact hb
  · exact scalarDispatch_preserves _ _ _ _ h q nm hb

theorem stepPDI_preserves (nl sl : Str) (acc a : ResultTable)
    (h : stepPDI nl sl acc = .ok a) (q : Nat) (nm : Str)
    (hb : (bindingAt acc q nm).isSome) : (bindingAt a q nm).isSome := by
  simp only [stepPDI] at h
  split at h
  · split at h
    · exact finishScalar_preserves _ _ _ _ _ _ _ h q nm hb
    · split at h
      · exact finishScalar_preserves _ _ _ _ _ _ _ h q nm hb
      · cases h; exact hb
  · cases h; exact hb

theorem stepRMS_preserves (nl sl : Str) (acc a : ResultTable)
    (h : stepRMS nl sl acc = .ok a) (q : Nat) (nm : Str)
    (hb : (bindingAt acc q nm).isSome) : (bindingAt a q nm).isSome := by
  simp only [stepRMS] at h
  split at h
  · cases h; exact hb
  · split at h
    · exact scalarDispatch_preserves _ _ _ _ h q nm hb
    · cases h; exact hb

/-- A successful scan never removes a binding already in the accumulator. -/
theorem scanLines_preserves (ls : List Str) :
    ∀ (acc t : ResultTable), scanLines ls acc = .ok t →
      ∀ (q : Nat) (nm : Str), (bindingAt acc q nm).isSome → (bindingAt t q nm).isSome := by
  induction ls with
  | nil =>
    intro acc t h q nm hb
    simp only [scanLines] at h
    cases h; exact hb
  | cons l rest ih =>
    intro acc t h q nm hb
    simp only [scanLines] at h
    split at h
    · split at h
      · split at h
        · rename_i heq
          exact ih _ _ h q nm (stepMolar_preserves _ _ _ _ heq q nm hb)
        · exact absurd h (by simp)
      · exact ih _ _ h q nm hb
    · split at h
      · split at h
        · split at h
          · rename_i heq
            exact ih _ _ h q nm (stepPDI_preserves _ _ _ _ heq q nm hb)
          · exact absurd h (by simp)
        · exact ih _ _ h q nm hb
      · split at h
        · split at h
          · split at h
            · rename_i heq
              exact ih _ _ h q nm (stepRMS_preserves _ _ _ _ heq q nm hb)
            · exact absurd h (by simp)
          · exact ih _ _ h q nm hb
        · exact ih _ _ h q nm hb

/-- C7: blocks accumulate rather than overwrite — a successful scan never
deletes a binding already present, so two blocks with the same peak index
and different names both end up in that peak's record.  Concretely, the
`Mn`/`Mw` document yields one PeakRecord holding both names. -/
theorem claim7_same_peak_accumulates :
    (∀ (ls : List Str) (acc t : ResultTable), scanLines ls acc = .ok t →
      ∀ (q : Nat) (nm : Str), (bindingAt acc q nm).isSome → (bindingAt t q nm).isSome) ∧
    extract_peak_results exGoodPair
      = [(1, [(nMnT, ⟨15000, "g/mol".data, 2⟩), (nMwT, ⟨30000, "g/mol".data, 2⟩)])] :=
  ⟨scanLines_preserves, rfl⟩

/-- C7 (witness): a pre-existing binding survives the scan of a concrete
document. -/
theorem claim7_witness :
    (bindingAt [(3, [(nMnT, ⟨1, [], 1⟩)]), (1, [(nMnT, ⟨15000, "g/mol".data, 2⟩)])]
      3 nMnT).isSome :=
  claim7_same_peak_accumulates.1 (splitNL exGoodOnly) [(3, [(nMnT, ⟨1, [], 1⟩)])]
    [(3, [(nMnT, ⟨1, [], 1⟩)]), (1, [(nMnT, ⟨15000, "g/mol".data, 2⟩)])]
    rfl 3 nMnT rfl

/-- Lines containing none of the three result-type tags leave the scan state
unchanged. -/
theorem scanLines_inert (ls : List Str) (h : ∀ l ∈ ls, noTags (stripE l) = true)
    (acc : ResultTable) : scanLines ls acc = .ok acc := by
  induction ls with
  | nil => rfl
  | cons l rest ih =>
    have hl := h l (by simp)
    simp only [noTags, Bool.not_eq_true', Bool.or_eq_false_iff] at hl
    obtain ⟨⟨ha, hb⟩, hc⟩ := hl
    simp only [scanLines, ha, hb, hc, Bool.false_eq_true, if_false]
    exact ih (fun x hx => h x (List.mem_cons_of_mem _ hx))

/-- Scanning a single three-line molar-mass block whose name and scalar
lines carry no result-type tag runs exactly the block handler. -/
theorem scanLines_mmBlock (nl sl : Str) (acc : ResultTable)
    (h1 : noTags (stripE nl) = true) (h2 : noTags (stripE sl) = true) :
    scanLines [mmTagT, nl, sl] acc
      = match stepMolar (stripE nl) (stripE sl) acc with
        | .ok a => .ok a
        | .error e => .error e := by
  have e0 : scanLines [mmTagT, nl, sl] acc
      = match stepMolar (stripE nl) (stripE sl) acc with
        | .ok a => scanLines [nl, sl] a
        | .error e => .error e := rfl
  rw [e0]
  cases hstep : stepMolar (stripE nl) (stripE sl) acc with
  | ok a =>
    exact scanLines_inert [nl, sl]
      (by
        intro x hx
        rcases List.mem_cons.mp hx with hx1 | hx2
        · rw [hx1]; exact h1
        · rw [List.mem_singleton.mp hx2]; exact h2) a
  | error e => rfl

/-- C4: for a well-formed three-line molar-mass block, extraction yields
exactly one Measurement with the parsed value, the units capture, and
`uncertainty_pct = 100 * uncertainty / value`, and the result is identical
whether the scalar line uses the attribute ordering
`units, uncertainty, peak` (`mkScalarA`) or `units, peak, uncertainty`
(`mkScalarB`, matched by the fallback pattern after the first fails). -/
theorem claim4_ordering_invariance :
    ∀ (name u s p v : Str) (unc value : ℚ) (acc : ResultTable),
      nameSearch (stripE (mkNameLine name)) = some name →
      scalarMM1 (stripE (mkScalarA u s p v)) = some (u, s, p, v) →
      scalarMM1 (stripE (mkScalarB u p s v)) = none →
      scalarMM2 (stripE (mkScalarB u p s v)) = some (u, p, s, v) →
      parseFloat? s = some unc →
      stripE v ≠ nAT → stripE v ≠ invT →
      parseFloat? (stripE v) = some value → value ≠ 0 →
      noTags (stripE (mkNameLine name)) = true →
      noTags (stripE (mkScalarA u s p v)) = true →
      noTags (stripE (mkScalarB u p s v)) = true →
      stepMolar (stripE (mkNameLine name)) (stripE (mkScalarA u s p v)) acc
          = .ok (tupsert acc (digitsVal p) name ⟨value, u, unc / value * 100⟩)
        ∧ stepMolar (stripE (mkNameLine name)) (stripE (mkScalarB u p s v)) acc
          = .ok (tupsert acc (digitsVal p) name ⟨value, u, unc / value * 100⟩)
        ∧ extractFromLines [mmTagT, mkNameLine name, mkScalarA u s p v]
          = [(digitsVal p, [(name, ⟨value, u, unc / value * 100⟩)])]
        ∧ extractFromLines [mmTagT, mkNameLine name, mkScalarB u p s v]
          = [(digitsVal p, [(name, ⟨value, u, unc / value * 100⟩)])] := by
  intro name u s p v unc value acc hn hA hB1 hB2 hu h2 h3 hv hz ht1 ht2 ht3
  have hstepA : ∀ acc0 : ResultTable,
      stepMolar (stripE (mkNameLine name)) (stripE (mkScalarA u s p v)) acc0
        = .ok (tupsert acc0 (digitsVal p) name ⟨value, u, unc / value * 100⟩) := by
    intro acc0
    simp only [stepMolar, hn, scalarDispatch, hA]
    exact finishScalar_records u s p v name acc0 unc value hu h2 h3 hv hz
  have hstepB : ∀ acc0 : ResultTable,
      stepMolar (stripE (mkNameLine name)) (stripE (mkScalarB u p s v)) acc0
        = .ok (tupsert acc0 (digitsVal p) name ⟨value, u, unc / value * 100⟩) := by
    intro acc0
    simp only [stepMolar, hn, scalarDispatch, hB1, hB2]
    exact finishScalar_records u s p v name acc0 unc value hu h2 h3 hv hz
  refine ⟨hstepA acc, hstepB acc, ?_, ?_⟩
  · unfold extractFromLines
    rw [scanLines_mmBlock _ _ _ ht1 ht2, hstepA []]
    rfl
  · unfold extractFromLines
    rw [scanLines_mmBlock _ _ _ ht1 ht3, hstepB []]
    rfl

/-- C4 (witness): the two orderings of a concrete `Mn` block produce the
same singleton table. -/
theorem claim4_witness :
    stepMolar (stripE (mkNameLine nMnT))
        (stripE (mkScalarA "g/mol".data "300".data ['1'] "15000".data)) []
      = .ok (tupsert [] (digitsVal ['1']) nMnT ⟨15000, "g/mol".data, 300 / 15000 * 100⟩)
    ∧ stepMolar (stripE (mkNameLine nMnT))
        (stripE (mkScalarB "g/mol".data ['1'] "300".data "15000".data)) []
      = .ok (tupsert [] (digitsVal ['1']) nMnT ⟨15000, "g/mol".data, 300 / 15000 * 100⟩)
    ∧ extractFromLines [mmTagT, mkNameLine nMnT,
        mkScalarA "g/mol".data "300".data ['1'] "15000".data]
      = [(digitsVal ['1'], [(nMnT, ⟨15000, "g/mol".data, 300 / 15000 * 100⟩)])]
    ∧ extractFromLines [mmTagT, mkNameLine nMnT,
        mkScalarB "g/mol".data ['1'] "300".data "15000".data]
      = [(digitsVal ['1'], [(nMnT, ⟨15000, "g/mol".data, 300 / 15000 * 100⟩)])] :=
  claim4_ordering_invariance nMnT "g/mol".data "300".data ['1'] "15000".data 300 15000 []
    (by decide) (by decide) (by decide) (by decide) (by decide) (by decide) (by decide)
    (by decide) (by decide) (by decide) (by decide) (by decide)

/-- Only the peak-header line of a peak block is recognised by `peakHdrOf`,
and it carries the rendered peak index. -/
theorem filterMap_peakHdrOf_renderPeak (n : Nat) (r : PeakRecord) :
    (renderPeak n r).filterMap peakHdrOf = [natStr n] := by
  rcases h1 : rlook r nMnT with _ | m1 <;>
  rcases h2 : rlook r nMwT with _ | m2 <;>
  rcases h3 : rlook r nMpT with _ | m3 <;>
  rcases h4 : rlook r nMzT with _ | m4 <;>
  rcases h5 : rlook r mwmnT with _ | m5 <;>
  rcases h6 : rlook r rzT with _ | m6 <;>
  simp only [renderPeak, h1, h2, h3, h4, h5, h6] <;> rfl

/-- The molar-mass-moment lines of a peak block are exactly the present
`Mn`, `Mw`, `Mp` entries, in that fixed order (`Mz` is never rendered). -/
theorem filterMap_momentOf_renderPeak (n : Nat) (r : PeakRecord) :
    (renderPeak n r).filterMap momentOf
      = optName nMnT (rlook r nMnT) ++ optName nMwT (rlook r nMwT)
        ++ optName nMpT (rlook r nMpT) := by
  rcases h1 : rlook r nMnT with _ | m1 <;>
  rcases h2 : rlook r nMwT with _ | m2 <;>
  rcases h3 : rlook r nMpT with _ | m3 <;>
  rcases h4 : rlook r nMzT with _ | m4 <;>
  rcases h5 : rlook r mwmnT with _ | m5 <;>
  rcases h6 : rlook r rzT with _ | m6 <;>
  simp only [renderPeak, optName, h1, h2, h3, h4, h5, h6] <;> rfl

/-- Heading occurrence counts of one peak block. -/
theorem countP_headers_renderPeak (n : Nat) (r : PeakRecord) :
    (renderPeak n r).countP (fun l => l == massHdrT)
      = (if ((rlook r nMnT).isSome || (rlook r nMwT).isSome || (rlook r nMpT).isSome
            || (rlook r nMzT).isSome) = true then 1 else 0)
    ∧ (renderPeak n r).countP (fun l => l == pdiHdrT)
      = (if (rlook r mwmnT).isSome = true then 1 else 0)
    ∧ (renderPeak n r).countP (fun l => l == rmsHdrT)
      = (if (rlook r rzT).isSome = true then 1 else 0) := by
  rcases h1 : rlook r nMnT with _ | m1 <;>
  rcases h2 : rlook r nMwT with _ | m2 <;>
  rcases h3 : rlook r nMpT with _ | m3 <;>
  rcases h4 : rlook r nMzT with _ | m4 <;>
  rcases h5 : rlook r mwmnT with _ | m5 <;>
  rcases h6 : rlook r rzT with _ | m6 <;>
  exact ⟨by simp only [renderPeak, h1, h2, h3, h4, h5, h6] <;> rfl,
         by simp only [renderPeak, h1, h2, h3, h4, h5, h6] <;> rfl,
         by simp only [renderPeak, h1, h2, h3, h4, h5, h6] <;> rfl⟩

theorem filterMap_peakHdrOf_flat (t : ResultTable) (ks : List Nat) :
    (ks.flatMap fun p => renderPeak p ((tlook t p).getD [])).filterMap peakHdrOf
      = ks.map natStr := by
  induction ks with
  | nil => rfl
  | cons k ks ih =>
    have e : (k :: ks).flatMap (fun p => renderPeak p ((tlook t p).getD []))
        = renderPeak k ((tlook t k).getD [])
          ++ ks.flatMap (fun p => renderPeak p ((tlook t p).getD [])) := rfl
    rw [e, List.filterMap_append, filterMap_peakHdrOf_renderPeak, ih]
    rfl

/-- C6 (amended): the report visits the peak indices in ascending numeric
order (the sequence of emitted peak headers is the sorted key list); within
a peak the moment lines are exactly the present `Mn`, `Mw`, `Mp` in that
fixed order; the polydispersity and RMS-radius sections (headings included)
are emitted exactly when `Mw/Mn` resp. `rz` is present; and the molar-mass
heading is emitted exactly when one of `Mn`, `Mw`, `Mp`, `Mz` is present —
so a record holding only `Mz` gets the heading with no measurement line
under it (`Mz` is never rendered), which is the one way an empty heading
can appear. -/
theorem claim6_report_structure :
    (∀ t : ResultTable,
      (renderReport t).filterMap peakHdrOf
        = ((t.map Prod.fst).insertionSort (· ≤ ·)).map natStr) ∧
    (∀ t : ResultTable, List.Sorted (· ≤ ·) ((t.map Prod.fst).insertionSort (· ≤ ·))) ∧
    (∀ t : ResultTable, ((t.map Prod.fst).insertionSort (· ≤ ·)).Perm (t.map Prod.fst)) ∧
    (∀ (n : Nat) (r : PeakRecord),
      (renderPeak n r).filterMap momentOf
        = optName nMnT (rlook r nMnT) ++ optName nMwT (rlook r nMwT)
          ++ optName nMpT (rlook r nMpT)) ∧
    (∀ (n : Nat) (r : PeakRecord),
      (renderPeak n r).countP (fun l => l == massHdrT)
        = (if ((rlook r nMnT).isSome || (rlook r nMwT).isSome || (rlook r nMpT).isSome
              || (rlook r nMzT).isSome) = true then 1 else 0)
      ∧ (renderPeak n r).countP (fun l => l == pdiHdrT)
        = (if (rlook r mwmnT).isSome = true then 1 else 0)
      ∧ (renderPeak n r).countP (fun l => l == rmsHdrT)
        = (if (rlook r rzT).isSome = true then 1 else 0)) := by
  refine ⟨?_, ?_, ?_, filterMap_momentOf_renderPeak, countP_headers_renderPeak⟩
  · intro t
    have e : renderReport t
        = [eq50, titleT, eq50]
          ++ ((t.map Prod.fst).insertionSort (· ≤ ·)).flatMap
              (fun p => renderPeak p ((tlook t p).getD [])) := rfl
    rw [e, List.filterMap_append, filterMap_peakHdrOf_flat]
    rfl
  · intro t
    exact List.sorted_insertionSort (· ≤ ·) (t.map Prod.fst)
  · intro t
    exact List.perm_insertionSort (· ≤ ·) (t.map Prod.fst)

/-- C6 (counterexample): for the table whose single record holds only `Mz`,
the rendered report contains the molar-mass-moments heading exactly once but
no moment line at all — an empty heading is emitted for a category with no
renderable measurement. -/
theorem claim6_counterexample :
    renderReport exMzTable
      = [eq50, titleT, eq50, '\n' :: (peakMarkT ++ natStr 1), dash30, massHdrT, [], []] ∧
    (renderReport exMzTable).countP (fun l => l == massHdrT) = 1 ∧
    (renderReport exMzTable).filterMap momentOf = [] :=
  ⟨rfl, rfl, rfl⟩

end GPC
